import Mathlib

/-
Verification of the barcodebuddy scanner core (app/scanner.py).

The module ScannerHandler is embedded shallowly:
  - HID_TO_CHAR            : the HID usage-code to character dictionary;
  - processKeys            : the per-key-code loop inside _listen_hidraw
                             (the for key_code in keys loop, including the
                             callback invocation; the callback is modelled as a
                             boolean-valued function telling whether it raises);
  - listenHidraw           : the read loop of _listen_hidraw over a list of
                             read results (full frame, short read, read error);
  - handleInputKeycode     : _handle_input_keycode over the optional buffer
                             entry of one device;
  - listenInputEvent       : the read loop of _listen_input_event;
  - listenLoop, listenDevice : the outer while-running loop of _listen_device,
                             with the environment supplying the outcome of each
                             open attempt and a fuel bound standing for how many
                             times the running flag is observed true;
  - findAllDevices         : _find_all_devices over an abstract filesystem;
  - initHandler, start, systemRun : __init__ and start, observing discovery,
                             the active device list and the reader traces.
-/

namespace BarcodeBuddy

/-- Association-list lookup with Nat keys, used to embed the Python dicts
HID_TO_CHAR and letter_map. -/
def tableLookup (t : List (Nat × Char)) (k : Nat) : Option Char :=
  match t with
  | [] => none
  | (a, c) :: rest => if k = a then some c else tableLookup rest k

/-- The entries of ScannerHandler.HID_TO_CHAR (scanner.py lines 15-24). -/
def HID_PAIRS : List (Nat × Char) :=
  [(4, 'A'), (5, 'B'), (6, 'C'), (7, 'D'), (8, 'E'), (9, 'F'), (10, 'G'),
   (11, 'H'), (12, 'I'), (13, 'J'), (14, 'K'), (15, 'L'), (16, 'M'), (17, 'N'),
   (18, 'O'), (19, 'P'), (20, 'Q'), (21, 'R'), (22, 'S'), (23, 'T'), (24, 'U'),
   (25, 'V'), (26, 'W'), (27, 'X'), (28, 'Y'), (29, 'Z'),
   (30, '1'), (31, '2'), (32, '3'), (33, '4'), (34, '5'),
   (35, '6'), (36, '7'), (37, '8'), (38, '9'), (39, '0'),
   (40, '\n'),
   (45, '-'), (46, '='), (47, '['), (48, ']')]

/-- HID usage code to character mapping (the dict HID_TO_CHAR). -/
def HID_TO_CHAR (k : Nat) : Option Char := tableLookup HID_PAIRS k

/-- A callback behaviour: the function receives the completed barcode and the
Bool tells whether the call raises an exception.  cbOk is a callback that
always returns normally. -/
def cbOk : String → Bool := fun _ => false

/-- A callback that raises exactly on the barcode AZ (used to exercise the
exception path of the callback). -/
def cbRaisesOnAZ : String → Bool := fun s => s == "AZ"

/-- The for key_code in keys loop of _listen_hidraw (scanner.py lines 156-172)
acting on the buffer of one device.  Result: (final buffer, barcodes passed to
the callback in order, whether a callback raised).  When the callback raises,
the remaining key codes of the frame are not processed and the buffer is left
as it was at the moment of the call (the clearing on line 166 is skipped). -/
def processKeys (cb : String → Bool) : List Nat → List Char → List Char × List String × Bool
  | [], buf => (buf, [], false)
  | k :: ks, buf =>
    if k = 0 then processKeys cb ks buf
    else if k = 40 then
      if buf = [] then processKeys cb ks buf
      else
        let s := String.mk buf
        if cb s then (buf, [s], true)
        else
          let r := processKeys cb ks []
          (r.1, s :: r.2.1, r.2.2)
    else
      match HID_TO_CHAR k with
      | some c => processKeys cb ks (buf ++ [c])
      | none => processKeys cb ks buf

/-- Outcome of one f.read call inside a read loop. -/
inductive ReadResult where
  | frame (data : List Nat)
  | shortRead
  | readError
deriving DecidableEq

/-- The while running read loop of _listen_hidraw (scanner.py lines 144-177)
over a list of read outcomes: a full frame is parsed (keys = data[2:8]) and its
key codes processed; a short read or a read exception breaks the loop; an
exception raised by the callback is caught by the same handler and also breaks
the loop, leaving the buffer as processKeys left it. -/
def listenHidraw (cb : String → Bool) : List ReadResult → List Char → List Char × List String
  | [], buf => (buf, [])
  | ReadResult.shortRead :: _, buf => (buf, [])
  | ReadResult.readError :: _, buf => (buf, [])
  | ReadResult.frame data :: rs, buf =>
    let r := processKeys cb ((data.drop 2).take 6) buf
    if r.2.2 then (r.1, r.2.1)
    else
      let t := listenHidraw cb rs r.1
      (t.1, r.2.1 ++ t.2)

/-- The entries of the letter_map dict inside _handle_input_keycode
(scanner.py lines 226-231): QWERTY letter row, home row, bottom row,
and the codes 12 and 13 for minus and equals. -/
def EVENT_PAIRS : List (Nat × Char) :=
  [(16, 'Q'), (17, 'W'), (18, 'E'), (19, 'R'), (20, 'T'), (21, 'Y'), (22, 'U'),
   (23, 'I'), (24, 'O'), (25, 'P'),
   (30, 'A'), (31, 'S'), (32, 'D'), (33, 'F'), (34, 'G'), (35, 'H'), (36, 'J'),
   (37, 'K'), (38, 'L'),
   (44, 'Z'), (45, 'X'), (46, 'C'), (47, 'V'), (48, 'B'), (49, 'N'), (50, 'M'),
   (12, '-'), (13, '=')]

/-- ScannerHandler._handle_input_keycode (scanner.py lines 204-234) acting on
the optional entry of one device in _barcode_buffers (none when the key is
absent from the dict).  Result: (new entry, barcode passed to the callback if
any, whether the callback raised).  For code 28 the entry is consulted with
dict.get, so an absent or empty entry emits nothing; for every other code the
entry is initialised to the empty string when absent, then digits 2-11, the
letter_map, or nothing is appended. -/
def handleInputKeycode (cb : String → Bool) (code : Nat) (entry : Option (List Char)) :
    Option (List Char) × Option String × Bool :=
  if code = 28 then
    match entry with
    | some buf =>
      if buf = [] then (entry, none, false)
      else
        let s := String.mk buf
        if cb s then (entry, some s, true) else (some [], some s, false)
    | none => (entry, none, false)
  else
    let buf := entry.getD []
    if 2 ≤ code ∧ code ≤ 11 then
      (some (buf ++ [Nat.digitChar ((code - 1) % 10)]), none, false)
    else
      match tableLookup EVENT_PAIRS code with
      | some c => (some (buf ++ [c]), none, false)
      | none => (some buf, none, false)

/-- Folding _handle_input_keycode over a list of key-down codes; a raising
callback propagates out of the handler and ends the run (the read loop of
_listen_input_event catches it and breaks). -/
def processCodes (cb : String → Bool) : List Nat → Option (List Char) → Option (List Char) × List String
  | [], e => (e, [])
  | k :: ks, e =>
    let r := handleInputKeycode cb k e
    if r.2.2 then (r.1, r.2.1.toList)
    else
      let t := processCodes cb ks r.1
      (t.1, r.2.1.toList ++ t.2)

/-- Outcome of one f.read(24) call in _listen_input_event: a full 24-byte
record, a short read, or a read exception. -/
inductive EvRead where
  | chunk (data : List Nat)
  | shortRead
  | readError
deriving DecidableEq

/-- Little-endian value of a list of bytes. -/
def leNat (bs : List Nat) : Nat := bs.foldr (fun b acc => b + 256 * acc) 0

/-- The type field of a struct input_event record, struct.unpack format llHHI
on a 64-bit little-endian host: bytes 16-17. -/
def evType (d : List Nat) : Nat := leNat ((d.drop 16).take 2)

/-- The code field of a struct input_event record: bytes 18-19. -/
def evCode (d : List Nat) : Nat := leNat ((d.drop 18).take 2)

/-- The value field of a struct input_event record: bytes 20-23. -/
def evValue (d : List Nat) : Nat := leNat ((d.drop 20).take 4)

/-- The while running read loop of _listen_input_event (scanner.py lines
186-202): only records with type 1 (EV_KEY) and value 1 (key down) are passed
to _handle_input_keycode; a short read, a read exception, or an exception
raised by the callback inside the handler breaks the loop. -/
def listenInputEvent (cb : String → Bool) : List EvRead → Option (List Char) → Option (List Char) × List String
  | [], e => (e, [])
  | EvRead.shortRead :: _, e => (e, [])
  | EvRead.readError :: _, e => (e, [])
  | EvRead.chunk d :: rs, e =>
    if evType d = 1 ∧ evValue d = 1 then
      let r := handleInputKeycode cb (evCode d) e
      if r.2.2 then (r.1, r.2.1.toList)
      else
        let t := listenInputEvent cb rs r.1
        (t.1, r.2.1.toList ++ t.2)
    else listenInputEvent cb rs e

/-- Outcome of one open attempt by _listen_hidraw inside an iteration of the
outer loop of _listen_device: the open succeeds and the subsequent read loop
sees the given read results, or the open raises PermissionError, or the open
raises some other exception (file not found, device busy, other OSError). -/
inductive OpenResult where
  | opened (reads : List ReadResult)
  | permissionDenied
  | otherFailure
deriving DecidableEq

/-- What one iteration of the outer while-running loop of _listen_device did:
a successful open followed by a read session that passed the listed barcodes
to the callback, or an open failure of either kind. -/
inductive IterLog where
  | session (emitted : List String)
  | openPermissionDenied
  | openOtherFailure
deriving DecidableEq

/-- The _barcode_buffers dict: device path to buffer contents. -/
abbrev Buffers := List (String × List Char)

/-- Dict membership test and read (Python: device in d, d[device], d.get). -/
def getEntry : Buffers → String → Option (List Char)
  | [], _ => none
  | (k, v) :: t, d => if k = d then some v else getEntry t d

/-- Dict write (Python: d[device] = value): replace the entry when present,
insert it otherwise. -/
def setBuf : Buffers → String → List Char → Buffers
  | [], d, v => [(d, v)]
  | (k, w) :: t, d, v => if k = d then (d, v) :: t else (k, w) :: setBuf t d v

/-- The buffer of a device as _listen_hidraw reads it (the entry exists once
_listen_device has initialised it). -/
def getBuf (m : Buffers) (d : String) : List Char := (getEntry m d).getD []

/-- The outer while self.running loop of _listen_device (scanner.py lines
119-134) for a hidraw device.  The fuel argument counts how many times the
running flag is observed true; env i gives the outcome of the open attempt of
iteration i.  PermissionError breaks the loop; any other exception sleeps five
seconds and retries; a session that returns normally (short read, read error,
or a caught callback exception) also retries.  Result: final _barcode_buffers
and the log of the iterations performed. -/
def listenLoop (cb : String → Bool) (device : String) (env : Nat → OpenResult) :
    Nat → Nat → Buffers → Buffers × List IterLog
  | 0, _, m => (m, [])
  | fuel + 1, i, m =>
    match env i with
    | OpenResult.permissionDenied => (m, [IterLog.openPermissionDenied])
    | OpenResult.otherFailure =>
      let t := listenLoop cb device env fuel (i + 1) m
      (t.1, IterLog.openOtherFailure :: t.2)
    | OpenResult.opened rs =>
      let r := listenHidraw cb rs (getBuf m device)
      let t := listenLoop cb device env fuel (i + 1) (setBuf m device r.1)
      (t.1, IterLog.session r.2 :: t.2)

/-- The shared mutable state touched by _listen_device: the _barcode_buffers
dict and the active_devices list. -/
structure DevState where
  buffers : Buffers
  active : List String
deriving DecidableEq

/-- ScannerHandler._listen_device (scanner.py lines 114-139) for a hidraw
device: initialise the buffer entry for the device, run the outer loop, and on
thread exit remove the device from active_devices if present (the buffer entry
is left in the dict). -/
def listenDevice (cb : String → Bool) (device : String) (env : Nat → OpenResult)
    (fuel : Nat) (st : DevState) : DevState × List IterLog :=
  let r := listenLoop cb device env fuel 0 (setBuf st.buffers device [])
  (⟨r.1, if st.active.contains device then st.active.erase device else st.active⟩, r.2)

/-- Number of iterations the outer loop of _listen_device performs: it depends
only on the fuel (the running flag) and on which open attempts raise
PermissionError — never on the contents of a read session. -/
def countIters (env : Nat → OpenResult) : Nat → Nat → Nat
  | 0, _ => 0
  | fuel + 1, i =>
    match env i with
    | OpenResult.permissionDenied => 1
    | OpenResult.otherFailure => 1 + countIters env fuel (i + 1)
    | OpenResult.opened _ => 1 + countIters env fuel (i + 1)

/-- Abstract filesystem seen by _find_all_devices: whether a path exists and
whether opening it for reading succeeds. -/
structure FS where
  pathExists : String → Bool
  openOk : String → Bool

/-- Candidate path for hidraw index i. -/
def hidrawPath (i : Nat) : String := "/dev/hidraw" ++ toString i

/-- Candidate path for input-event index i. -/
def eventPath (i : Nat) : String := "/dev/input/event" ++ toString i

/-- A path is accessible when it exists and a read-mode open succeeds; the
probe open is closed at once by the with-block, which the pure query models. -/
def accessible (fs : FS) (p : String) : Bool := fs.pathExists p && fs.openOk p

/-- The first loop of _find_all_devices (scanner.py lines 70-80): probe hidraw
indices 0-19 in order, keeping the accessible paths; an inaccessible candidate
is skipped (the exception is caught and the loop continues). -/
def hidrawDevices (fs : FS) : List String :=
  (List.range 20).filterMap fun i =>
    if accessible fs (hidrawPath i) then some (hidrawPath i) else none

/-- The fallback loop of _find_all_devices (scanner.py lines 83-92): probe
input-event indices 0-9 in order. -/
def eventDevices (fs : FS) : List String :=
  (List.range 10).filterMap fun i =>
    if accessible fs (eventPath i) then some (eventPath i) else none

/-- ScannerHandler._find_all_devices (scanner.py lines 65-94): the accessible
hidraw paths, or, when there are none, the accessible input-event paths. -/
def findAllDevices (fs : FS) : List String :=
  let devices := hidrawDevices fs
  if devices.isEmpty then eventDevices fs else devices

/-- A filesystem on which exactly /dev/hidraw3 and /dev/hidraw7 are
accessible; /dev/hidraw5 exists but cannot be opened and /dev/hidraw9 can be
opened but does not exist, so inaccessible indices are interspersed. -/
def fsOnly37 : FS :=
  { pathExists := fun p => p == "/dev/hidraw3" || p == "/dev/hidraw5" || p == "/dev/hidraw7"
    openOk := fun p => p == "/dev/hidraw3" || p == "/dev/hidraw7" || p == "/dev/hidraw9" }

/-- The fields of ScannerHandler set by __init__ (scanner.py lines 26-32) that
the lifecycle model observes, plus whether start spawned the monitor thread. -/
structure ScannerHandler where
  device_path : String
  running : Bool
  active_devices : List String
  monitorSpawned : Bool
deriving DecidableEq

/-- ScannerHandler.__init__: stores the device path hint (never read again),
running is false, no active devices, empty buffers. -/
def initHandler (device_path : String) : ScannerHandler :=
  { device_path := device_path, running := false, active_devices := [], monitorSpawned := false }

/-- ScannerHandler.start (scanner.py lines 34-56): set running, run discovery
once; when nothing is found spawn the monitor thread, otherwise spawn one
reader per device and append each device to active_devices.  Result: the
updated handler and the list of devices for which a reader was spawned. -/
def start (fs : FS) (h : ScannerHandler) : ScannerHandler × List String :=
  let h1 := { h with running := true }
  let devices := findAllDevices fs
  if devices.isEmpty then ({ h1 with monitorSpawned := true }, [])
  else ({ h1 with active_devices := h1.active_devices ++ devices }, devices)

/-- Observable behaviour of a constructed-and-started handler: the discovery
result, the active device list, whether the monitor was spawned, and the
iteration log of every spawned reader run against its environment. -/
def systemRun (dp : String) (fs : FS) (cb : String → Bool)
    (env : String → Nat → OpenResult) (fuel : Nat) :
    List String × List String × Bool × List (List IterLog) :=
  let r := start fs (initHandler dp)
  (findAllDevices fs, r.1.active_devices, r.1.monitorSpawned,
   r.2.map fun d => (listenDevice cb d (env d) fuel ⟨[], r.1.active_devices⟩).2)

/-- Environment for the short-read scenario: the first open succeeds and the
read session ends at once with a short read; the second open succeeds and the
session carries one frame holding the barcode AZ and its terminator. -/
def envShortRead : Nat → OpenResult := fun i =>
  match i with
  | 0 => OpenResult.opened [ReadResult.shortRead]
  | 1 => OpenResult.opened [ReadResult.frame [0, 0, 4, 29, 40, 0, 0, 0]]
  | _ => OpenResult.permissionDenied

/-- Environment for the failed-open scenario: the first open raises a
non-permission exception (file not found or busy), the second open succeeds
with a session carrying the barcode AZ. -/
def envOpenFail : Nat → OpenResult := fun i =>
  match i with
  | 0 => OpenResult.otherFailure
  | 1 => OpenResult.opened [ReadResult.frame [0, 0, 4, 29, 40, 0, 0, 0]]
  | _ => OpenResult.permissionDenied

/-- Environment for the raising-callback scenario: the first session delivers
the barcode AZ (on which the callback raises), the second session consists of
one lone terminator frame. -/
def envCbRaise : Nat → OpenResult := fun i =>
  match i with
  | 0 => OpenResult.opened [ReadResult.frame [0, 0, 4, 29, 40, 0, 0, 0]]
  | 1 => OpenResult.opened [ReadResult.frame [0, 0, 40, 0, 0, 0, 0, 0]]
  | _ => OpenResult.permissionDenied

/-- Lookup success puts the pair in the table. -/
theorem tableLookup_mem {t : List (Nat × Char)} {k : Nat} {c : Char}
    (h : tableLookup t k = some c) : (k, c) ∈ t := by
  induction t with
  | nil => simp [tableLookup] at h
  | cons p rest ih =>
    obtain ⟨a, b⟩ := p
    by_cases hk : k = a
    · subst hk
      simp [tableLookup] at h
      subst h
      exact List.mem_cons_self _ _
    · simp [tableLookup, hk] at h
      exact List.mem_cons_of_mem _ (ih h)

/-- Only the usage code 40 maps to the newline character in HID_TO_CHAR. -/
theorem hid_newline_only_40 {k : Nat} {c : Char}
    (h : HID_TO_CHAR k = some c) (hc : c = '\n') : k = 40 := by
  subst hc
  have hmem := tableLookup_mem h
  have : ∀ p ∈ HID_PAIRS, p.2 = '\n' → p.1 = 40 := by decide
  exact this _ hmem rfl

/-- A code with a character in HID_TO_CHAR is not the empty slot 0. -/
theorem hid_ne_zero {k : Nat} {c : Char} (h : HID_TO_CHAR k = some c) : k ≠ 0 := by
  intro hk
  subst hk
  simp [HID_TO_CHAR, tableLookup, HID_PAIRS] at h

/-- With a callback that returns normally, a run of mapped non-terminator key
codes appends exactly their characters, emits nothing and raises nothing. -/
theorem processKeys_chars {cs : List Nat}
    (hall : ∀ k ∈ cs, k ≠ 40 ∧ (HID_TO_CHAR k).isSome) :
    ∀ buf, processKeys cbOk cs buf = (buf ++ cs.filterMap HID_TO_CHAR, [], false) := by
  induction cs with
  | nil => intro buf; simp [processKeys]
  | cons k ks ih =>
    intro buf
    obtain ⟨h40, hsome⟩ := hall k (List.mem_cons_self _ _)
    obtain ⟨c, hc⟩ := Option.isSome_iff_exists.mp hsome
    have h0 : k ≠ 0 := hid_ne_zero hc
    have ihtail := ih fun a ha => hall a (List.mem_cons_of_mem _ ha)
    simp [processKeys, h0, h40, hc, ihtail]

/-- With a callback that returns normally, a lone terminator on a non-empty
buffer emits the buffer once and clears it. -/
theorem processKeys_term {buf : List Char} (h : buf ≠ []) :
    processKeys cbOk [40] buf = ([], [String.mk buf], false) := by
  simp [processKeys, h, cbOk]

/-- With a callback that returns normally, processing a concatenation of key
code lists is processing one after the other. -/
theorem processKeys_append (as bs : List Nat) :
    ∀ buf, processKeys cbOk (as ++ bs) buf =
      ((processKeys cbOk bs (processKeys cbOk as buf).1).1,
       (processKeys cbOk as buf).2.1 ++ (processKeys cbOk bs (processKeys cbOk as buf).1).2.1,
       (processKeys cbOk bs (processKeys cbOk as buf).1).2.2) := by
  induction as with
  | nil => intro buf; simp [processKeys]
  | cons k ks ih =>
    intro buf
    by_cases h0 : k = 0
    · subst h0; simp [processKeys, ih]
    · by_cases h40 : k = 40
      · subst h40
        by_cases hbuf : buf = []
        · simp [processKeys, h0, hbuf, ih]
        · simp [processKeys, h0, hbuf, cbOk, ih]
      · cases hc : HID_TO_CHAR k with
        | none => simp [processKeys, h0, h40, hc, ih]
        | some c => simp [processKeys, h0, h40, hc, ih]

/-- Claim C1: for every non-empty sequence of HID key-code bytes that each map
to a character, followed by the terminator code 40, fed to one device buffer,
the callback is invoked exactly once, with the concatenation of the mapped
characters in input order; in particular the bytes 4, 29, 40 yield exactly the
string AZ. -/
theorem C1_hid_assembly (cs : List Nat) (hne : cs ≠ [])
    (hall : ∀ k ∈ cs, k ≠ 40 ∧ (HID_TO_CHAR k).isSome) :
    processKeys cbOk (cs ++ [40]) [] = ([], [String.mk (cs.filterMap HID_TO_CHAR)], false) ∧
    processKeys cbOk [4, 29, 40] [] = ([], ["AZ"], false) := by
  constructor
  · rw [processKeys_append, processKeys_chars hall]
    have hfne : cs.filterMap HID_TO_CHAR ≠ [] := by
      obtain ⟨k, ks, rfl⟩ := List.exists_cons_of_ne_nil hne
      obtain ⟨h40, hsome⟩ := hall k (List.mem_cons_self _ _)
      obtain ⟨c, hc⟩ := Option.isSome_iff_exists.mp hsome
      simp [List.filterMap_cons, hc]
    rw [List.nil_append, processKeys_term hfne]
    simp
  · decide

/-- Witness for C1 at the concrete input 4, 29 followed by 40. -/
theorem C1_hid_assembly_witness :
    processKeys cbOk ([4, 29] ++ [40]) [] =
      ([], [String.mk ([4, 29].filterMap HID_TO_CHAR)], false) ∧
    processKeys cbOk [4, 29, 40] [] = ([], ["AZ"], false) :=
  C1_hid_assembly [4, 29] (by decide) (by decide)

/-- Any run of terminators on an empty hidraw buffer does nothing. -/
theorem processKeys_replicate_term (n : Nat) :
    processKeys cbOk (List.replicate n 40) [] = ([], [], false) := by
  induction n with
  | zero => simp [processKeys]
  | succ m ih => simpa [List.replicate_succ, processKeys] using ih

/-- A terminator keycode on an absent or empty input-event entry is a no-op. -/
theorem handleInputKeycode_term_empty {e : Option (List Char)} (he : e.getD [] = []) :
    handleInputKeycode cbOk 28 e = (e, none, false) := by
  cases e with
  | none => simp [handleInputKeycode]
  | some buf =>
    simp only [Option.getD_some] at he
    simp [handleInputKeycode, he]

/-- Any run of terminator keycodes on an absent or empty input-event entry
does nothing. -/
theorem processCodes_replicate_term {e : Option (List Char)} (he : e.getD [] = [])
    (n : Nat) : processCodes cbOk (List.replicate n 28) e = (e, []) := by
  induction n with
  | zero => simp [processCodes]
  | succ m ih =>
    simpa [List.replicate_succ, processCodes, handleInputKeycode_term_empty he] using ih

/-- Claim C5: after any terminator is processed the buffer of the device is
empty, whether or not a barcode was emitted; a terminator arriving on an empty
(or absent) buffer emits nothing and leaves it as it was, so n consecutive
terminators on an empty buffer are equivalent to one.  Both decoding paths are
covered; the callback is modelled as returning normally. -/
theorem C5_terminator_invariant (buf : List Char) (e : Option (List Char)) (n : Nat)
    (he : e.getD [] = []) :
    (processKeys cbOk [40] buf).1 = [] ∧
    processKeys cbOk [40] [] = ([], [], false) ∧
    processKeys cbOk (List.replicate (n + 1) 40) [] = processKeys cbOk [40] [] ∧
    (handleInputKeycode cbOk 28 (some buf)).1.getD [] = [] ∧
    handleInputKeycode cbOk 28 e = (e, none, false) ∧
    processCodes cbOk (List.replicate (n + 1) 28) e = processCodes cbOk [28] e := by
  refine ⟨?_, by simp [processKeys], ?_, ?_, handleInputKeycode_term_empty he, ?_⟩
  · by_cases hb : buf = []
    · simp [processKeys, hb]
    · simp [processKeys_term hb]
  · rw [processKeys_replicate_term, show [40] = List.replicate 1 40 from rfl,
      processKeys_replicate_term]
  · by_cases hb : buf = []
    · simp [handleInputKeycode, hb]
    · simp [handleInputKeycode, hb, cbOk]
  · rw [processCodes_replicate_term he, show [28] = List.replicate 1 28 from rfl,
      processCodes_replicate_term he]

/-- Witness for C5 at a concrete non-empty buffer and absent entry. -/
theorem C5_terminator_invariant_witness :
    (processKeys cbOk [40] ['A']).1 = [] ∧
    processKeys cbOk [40] [] = ([], [], false) ∧
    processKeys cbOk (List.replicate 1 40) [] = processKeys cbOk [40] [] ∧
    (handleInputKeycode cbOk 28 (some ['A'])).1.getD [] = [] ∧
    handleInputKeycode cbOk 28 none = (none, none, false) ∧
    processCodes cbOk (List.replicate 1 28) none = processCodes cbOk [28] none :=
  C5_terminator_invariant ['A'] none 0 rfl

/-- Claim C7: every string passed to the callback on the hidraw path contains
no terminator character: the newline that usage code 40 maps to in HID_TO_CHAR
is never appended to a buffer, and the emitted strings carry the accumulated
characters unaltered, so a buffer free of newlines only ever emits
newline-free strings and stays newline-free. -/
theorem C7_no_terminator_in_output (ks : List Nat) (buf : List Char)
    (hbuf : '\n' ∉ buf) :
    (∀ s ∈ (processKeys cbOk ks buf).2.1, '\n' ∉ s.data) ∧
    '\n' ∉ (processKeys cbOk ks buf).1 := by
  induction ks generalizing buf with
  | nil => simpa [processKeys] using hbuf
  | cons k ks ih =>
    by_cases h0 : k = 0
    · simpa [processKeys, h0] using ih buf hbuf
    · by_cases h40 : k = 40
      · by_cases hb : buf = []
        · simpa [processKeys, h0, h40, hb] using ih buf hbuf
        · have ihe := ih [] (by simp)
          subst h40
          have hrun : processKeys cbOk (40 :: ks) buf =
              ((processKeys cbOk ks []).1,
               String.mk buf :: (processKeys cbOk ks []).2.1,
               (processKeys cbOk ks []).2.2) := by
            simp [processKeys, h0, hb, cbOk]
          rw [hrun]
          constructor
          · intro s hs
            rcases List.mem_cons.mp hs with hs | hs
            · subst hs; exact hbuf
            · exact ihe.1 s hs
          · exact ihe.2
      · cases hc : HID_TO_CHAR k with
        | none => simpa [processKeys, h0, h40, hc] using ih buf hbuf
        | some c =>
          have hcn : c ≠ '\n' := fun h => h40 (hid_newline_only_40 hc h)
          have : '\n' ∉ buf ++ [c] := by
            simp [hbuf]
            intro h
            exact hcn h.symm
          simpa [processKeys, h0, h40, hc] using ih (buf ++ [c]) this

/-- Witness for C7 at the concrete input 4, 29, 40 from an empty buffer. -/
theorem C7_no_terminator_in_output_witness :
    '\n' ∉ ("AZ".data) ∧ '\n' ∉ (processKeys cbOk [4, 29, 40] []).1 :=
  ⟨(C7_no_terminator_in_output [4, 29, 40] [] (by simp)).1 "AZ" (by decide),
   (C7_no_terminator_in_output [4, 29, 40] [] (by simp)).2⟩

/-- A filterMap of a guarded some is the filter followed by the map. -/
theorem filterMap_guard {α β : Type} (p : α → Bool) (g : α → β) (l : List α) :
    (l.filterMap fun a => if p a then some (g a) else none) = (l.filter p).map g := by
  induction l with
  | nil => simp
  | cons a t ih =>
    by_cases h : p a <;> simp [List.filterMap_cons, List.filter_cons, h, ih]

/-- Claim C6: discovery returns exactly the accessible candidates in ascending
fixed index order; hidraw indices 0-19 are probed first and input-event
indices 0-9 only when no hidraw path was accessible; an inaccessible candidate
is silently skipped (the probe is a total function, no exception escapes); on
a filesystem where exactly hidraw 3 and hidraw 7 are accessible the result is
exactly those two paths in order. -/
theorem C6_discovery (fs : FS) :
    (∀ p ∈ findAllDevices fs, accessible fs p = true) ∧
    hidrawDevices fs =
      ((List.range 20).filter fun i => accessible fs (hidrawPath i)).map hidrawPath ∧
    eventDevices fs =
      ((List.range 10).filter fun i => accessible fs (eventPath i)).map eventPath ∧
    List.Pairwise (· < ·) ((List.range 20).filter fun i => accessible fs (hidrawPath i)) ∧
    ((hidrawDevices fs).isEmpty = false → findAllDevices fs = hidrawDevices fs) ∧
    ((hidrawDevices fs).isEmpty = true → findAllDevices fs = eventDevices fs) ∧
    findAllDevices fsOnly37 = ["/dev/hidraw3", "/dev/hidraw7"] := by
  refine ⟨?_, filterMap_guard _ _ _, filterMap_guard _ _ _,
    (List.pairwise_lt_range 20).filter _, ?_, ?_, by decide⟩
  · intro p hp
    by_cases h : (hidrawDevices fs).isEmpty
    · have hfd : findAllDevices fs = eventDevices fs := by simp [findAllDevices, h]
      rw [hfd, eventDevices, filterMap_guard] at hp
      obtain ⟨i, hi, rfl⟩ := List.mem_map.mp hp
      exact (List.mem_filter.mp hi).2
    · have hfd : findAllDevices fs = hidrawDevices fs := by simp [findAllDevices, h]
      rw [hfd, hidrawDevices, filterMap_guard] at hp
      obtain ⟨i, hi, rfl⟩ := List.mem_map.mp hp
      exact (List.mem_filter.mp hi).2
  · intro h; simp [findAllDevices, h]
  · intro h; simp [findAllDevices, h]

/-- Witness for C6 at the concrete filesystem with hidraw 3 and 7. -/
theorem C6_discovery_witness :
    accessible fsOnly37 "/dev/hidraw3" = true ∧
    findAllDevices fsOnly37 = hidrawDevices fsOnly37 :=
  ⟨(C6_discovery fsOnly37).1 "/dev/hidraw3" (by decide),
   (C6_discovery fsOnly37).2.2.2.2.1 (by decide)⟩

/-- Claim C8: on the input-event path only records with type 1 and value 1
reach the keycode handler; code 28 acts as the terminator; codes 2 to 11 map
to the digits 1 to 9 then 0; codes 12 and 13 map to minus and equals; the
fixed QWERTY table maps the letter rows to the letters A to Z; every unmapped
code leaves the buffer contents unchanged. -/
theorem C8_event_decoding (d : List Nat) (rs : List EvRead) (e : Option (List Char))
    (buf : List Char) (k : Nat) :
    (¬(evType d = 1 ∧ evValue d = 1) →
      listenInputEvent cbOk (EvRead.chunk d :: rs) e = listenInputEvent cbOk rs e) ∧
    (handleInputKeycode cbOk 28 (some buf)).2.1 =
      (if buf = [] then none else some (String.mk buf)) ∧
    ((List.range 10).map fun j => (handleInputKeycode cbOk (j + 2) (some [])).1) =
      [some ['1'], some ['2'], some ['3'], some ['4'], some ['5'],
       some ['6'], some ['7'], some ['8'], some ['9'], some ['0']] ∧
    (2 ≤ k → k ≤ 11 →
      (handleInputKeycode cbOk k (some buf)).1 =
        some (buf ++ [Nat.digitChar ((k - 1) % 10)])) ∧
    ([16, 17, 18, 19, 20, 21, 22, 23, 24, 25].map
        fun a => (handleInputKeycode cbOk a (some [])).1) =
      "QWERTYUIOP".data.map (fun c => some [c]) ∧
    ([30, 31, 32, 33, 34, 35, 36, 37, 38].map
        fun a => (handleInputKeycode cbOk a (some [])).1) =
      "ASDFGHJKL".data.map (fun c => some [c]) ∧
    ([44, 45, 46, 47, 48, 49, 50].map
        fun a => (handleInputKeycode cbOk a (some [])).1) =
      "ZXCVBNM".data.map (fun c => some [c]) ∧
    (handleInputKeycode cbOk 12 (some buf)).1 = some (buf ++ ['-']) ∧
    (handleInputKeycode cbOk 13 (some buf)).1 = some (buf ++ ['=']) ∧
    (k ≠ 28 → ¬(2 ≤ k ∧ k ≤ 11) → tableLookup EVENT_PAIRS k = none →
      handleInputKeycode cbOk k (some buf) = (some buf, none, false)) := by
  refine ⟨?_, ?_, by decide, ?_, by decide, by decide, by decide, ?_, ?_, ?_⟩
  · intro h
    simp [listenInputEvent, h]
  · by_cases hb : buf = [] <;> simp [handleInputKeycode, hb, cbOk]
  · intro h2 h11
    have h28 : k ≠ 28 := by omega
    simp [handleInputKeycode, h28, h2, h11]
  · simp [handleInputKeycode, tableLookup, EVENT_PAIRS]
  · simp [handleInputKeycode, tableLookup, EVENT_PAIRS]
  · intro h28 hdig hlook
    simp [handleInputKeycode, h28, hdig, hlook]

/-- Witness for C8: a record of zero bytes is filtered out, code 7 appends the
digit 6, code 1 is unmapped and leaves the buffer unchanged. -/
theorem C8_event_decoding_witness :
    listenInputEvent cbOk (EvRead.chunk (List.replicate 24 0) :: []) none =
      listenInputEvent cbOk [] none ∧
    (handleInputKeycode cbOk 7 (some ['A'])).1 =
      some (['A'] ++ [Nat.digitChar ((7 - 1) % 10)]) ∧
    handleInputKeycode cbOk 1 (some ['A']) = (some ['A'], none, false) :=
  ⟨(C8_event_decoding (List.replicate 24 0) [] none ['A'] 7).1 (by decide),
   (C8_event_decoding (List.replicate 24 0) [] none ['A'] 7).2.2.2.1 (by decide) (by decide),
   (C8_event_decoding (List.replicate 24 0) [] none ['A'] 1).2.2.2.2.2.2.2.2.2
     (by decide) (by decide) (by decide)⟩

/-- Claim C10: the device_path argument given to the constructor has no effect
on behaviour: for any two hint strings, with the same filesystem, callback and
device environments, the discovery result, the spawned readers, the active
device list, the monitor decision and every reader trace are identical,
because the stored device_path is never read again. -/
theorem C10_device_path_noninterference (dp1 dp2 : String) (fs : FS)
    (cb : String → Bool) (env : String → Nat → OpenResult) (fuel : Nat) :
    systemRun dp1 fs cb env fuel = systemRun dp2 fs cb env fuel := by
  by_cases h : (findAllDevices fs).isEmpty <;>
    simp [systemRun, start, initHandler, h]

/-- Writing a dict entry makes it readable. -/
theorem getEntry_setBuf (m : Buffers) (d : String) (v : List Char) :
    getEntry (setBuf m d v) d = some v := by
  induction m with
  | nil => simp [setBuf, getEntry]
  | cons p t ih =>
    obtain ⟨k, w⟩ := p
    by_cases h : k = d <;> simp [setBuf, getEntry, h, ih]

/-- The outer loop of _listen_device never deletes the buffer entry of its
device. -/
theorem listenLoop_preserves_entry (cb : String → Bool) (device : String)
    (env : Nat → OpenResult) :
    ∀ fuel i m, (getEntry m device).isSome = true →
      (getEntry (listenLoop cb device env fuel i m).1 device).isSome = true := by
  intro fuel
  induction fuel with
  | zero => intro i m h; simpa [listenLoop] using h
  | succ n ih =>
    intro i m h
    cases henv : env i with
    | permissionDenied => simpa [listenLoop, henv] using h
    | otherFailure => simpa [listenLoop, henv] using ih (i + 1) m h
    | opened rs =>
      have := ih (i + 1)
        (setBuf m device (listenHidraw cb rs (getBuf m device)).1)
        (by simp [getEntry_setBuf])
      simpa [listenLoop, henv] using this

/-- Any iteration of the outer loop of _listen_device logs at least one
entry. -/
theorem listenLoop_length_pos (cb : String → Bool) (device : String)
    (env : Nat → OpenResult) (fuel i : Nat) (m : Buffers) :
    1 ≤ (listenLoop cb device env (fuel + 1) i m).2.length := by
  cases henv : env i <;> simp [listenLoop, henv]

/-- Removing the device from active_devices happens exactly once, at thread
exit, and equals an erase of the first occurrence. -/
theorem listenDevice_active (cb : String → Bool) (device : String)
    (env : Nat → OpenResult) (fuel : Nat) (st : DevState) :
    (listenDevice cb device env fuel st).1.active = st.active.erase device := by
  simp only [listenDevice]
  by_cases h : st.active.contains device = true
  · rw [if_pos h]
  · rw [if_neg h]
    exact (List.erase_of_not_mem (by simpa using h)).symm

/-- Counterexample to claim C2: with a first session ending in a short read
and a second open succeeding, the Reader of the device re-opens the device and
invokes the callback with AZ after the short read, instead of terminating. -/
theorem C2_counterexample :
    (listenDevice cbOk "/dev/hidraw0" envShortRead 2 ⟨[], ["/dev/hidraw0"]⟩).2 =
      [IterLog.session [], IterLog.session ["AZ"]] := by decide

/-- Claim C2 as amended: a short read ends only the inner read loop of its
session.  When iteration i opens a session that ends in a short read and the
running flag is still set, the Reader itself re-opens the device: the trace
continues with the open attempt of iteration i+1, and when that open succeeds
the next session runs and its callback invocations for the device occur,
starting from the buffer contents the interrupted session left behind.  The
number of outer-loop iterations is governed solely by the running flag and by
which open attempts raise PermissionError, never by the contents of a read
session; and the device identifier is removed from the active device list
exactly when the Reader exits. -/
theorem C2_amended (cb : String → Bool) (device : String) (env : Nat → OpenResult)
    (rs rs2 : List ReadResult) (fuel i : Nat) (m : Buffers) (st : DevState)
    (h1 : env i = OpenResult.opened (rs ++ [ReadResult.shortRead]))
    (h2 : env (i + 1) = OpenResult.opened rs2) :
    (∃ t, (listenLoop cb device env (fuel + 2) i m).2 =
      IterLog.session
        (listenHidraw cb (rs ++ [ReadResult.shortRead]) (getBuf m device)).2 ::
      IterLog.session
        (listenHidraw cb rs2
          (listenHidraw cb (rs ++ [ReadResult.shortRead]) (getBuf m device)).1).2 :: t) ∧
    (listenLoop cb device env fuel i m).2.length = countIters env fuel i ∧
    (listenDevice cb device env fuel st).1.active = st.active.erase device := by
  refine ⟨?_, ?_, listenDevice_active cb device env fuel st⟩
  · refine ⟨(listenLoop cb device env fuel (i + 1 + 1)
      (setBuf
        (setBuf m device
          (listenHidraw cb (rs ++ [ReadResult.shortRead]) (getBuf m device)).1)
        device
        (listenHidraw cb rs2
          (listenHidraw cb (rs ++ [ReadResult.shortRead]) (getBuf m device)).1).1)).2, ?_⟩
    simp only [listenLoop, h1, h2, getBuf, getEntry_setBuf, Option.getD_some]
  · clear h1 h2
    induction fuel generalizing i m with
    | zero => simp [listenLoop, countIters]
    | succ n ih =>
      cases henv : env i with
      | permissionDenied => simp [listenLoop, countIters, henv]
      | otherFailure => simp [listenLoop, countIters, henv, ih, Nat.add_comm]
      | opened rs3 => simp [listenLoop, countIters, henv, ih, Nat.add_comm]

/-- Witness for the amended C2 at the short-read environment: two iterations
happen (the short read did not end the Reader) and the device is erased from
the active list at exit. -/
theorem C2_amended_witness :
    (listenLoop cbOk "/dev/hidraw0" envShortRead 2 0 []).2.length =
      countIters envShortRead 2 0 ∧
    (listenDevice cbOk "/dev/hidraw0" envShortRead 2
      ⟨[], ["/dev/hidraw0"]⟩).1.active =
      (["/dev/hidraw0"] : List String).erase "/dev/hidraw0" :=
  ⟨(C2_amended cbOk "/dev/hidraw0" envShortRead []
      [ReadResult.frame [0, 0, 4, 29, 40, 0, 0, 0]] 2 0 []
      ⟨[], ["/dev/hidraw0"]⟩ rfl rfl).2.1,
   (C2_amended cbOk "/dev/hidraw0" envShortRead []
      [ReadResult.frame [0, 0, 4, 29, 40, 0, 0, 0]] 2 0 []
      ⟨[], ["/dev/hidraw0"]⟩ rfl rfl).2.2⟩

/-- Counterexample to claim C3: with a callback that raises on AZ, the Reader
invokes the callback twice with the same completed barcode AZ, and after the
raising invocation the buffer of the device still holds the delivered text. -/
theorem C3_counterexample :
    (listenDevice cbRaisesOnAZ "/dev/hidraw0" envCbRaise 2 ⟨[], ["/dev/hidraw0"]⟩).2 =
      [IterLog.session ["AZ"], IterLog.session ["AZ"]] ∧
    getEntry (listenDevice cbRaisesOnAZ "/dev/hidraw0" envCbRaise 1
      ⟨[], ["/dev/hidraw0"]⟩).1.buffers "/dev/hidraw0" = some ['A', 'Z'] := by decide

/-- Claim C3 as amended: per terminator event the callback is invoked exactly
once with the completed barcode, but the buffer is cleared only when the
callback returns normally: when it raises, the buffer still holds the
delivered text and the rest of the read session is abandoned, so the same
barcode can be delivered again after the Reader re-opens the device. -/
theorem C3_amended (cb : String → Bool) (buf : List Char) (rs : List ReadResult)
    (h : buf ≠ []) :
    (processKeys cb [40] buf).2.1 = [String.mk buf] ∧
    (processKeys cb [40] buf).1 = (if cb (String.mk buf) then buf else []) ∧
    (cb (String.mk buf) = true →
      listenHidraw cb (ReadResult.frame [0, 0, 40, 0, 0, 0, 0, 0] :: rs) buf =
        (buf, [String.mk buf])) := by
  refine ⟨?_, ?_, ?_⟩
  · by_cases hcb : cb (String.mk buf) <;> simp [processKeys, h, hcb]
  · by_cases hcb : cb (String.mk buf) <;> simp [processKeys, h, hcb]
  · intro hcb
    simp [listenHidraw, processKeys, h, hcb]

/-- Witness for the amended C3 with the callback raising on AZ. -/
theorem C3_amended_witness :
    (processKeys cbRaisesOnAZ [40] ['A', 'Z']).2.1 = [String.mk ['A', 'Z']] ∧
    listenHidraw cbRaisesOnAZ (ReadResult.frame [0, 0, 40, 0, 0, 0, 0, 0] :: [])
      ['A', 'Z'] = (['A', 'Z'], [String.mk ['A', 'Z']]) :=
  ⟨(C3_amended cbRaisesOnAZ ['A', 'Z'] [] (by decide)).1,
   (C3_amended cbRaisesOnAZ ['A', 'Z'] [] (by decide)).2.2 (by decide)⟩

/-- Counterexample to claim C4: when the first open fails with an exception
other than PermissionError (file not found, busy), the Reader does not
terminate: it retries the open itself and the second session delivers AZ. -/
theorem C4_counterexample :
    (listenDevice cbOk "/dev/hidraw0" envOpenFail 2 ⟨[], ["/dev/hidraw0"]⟩).2 =
      [IterLog.openOtherFailure, IterLog.session ["AZ"]] := by decide

/-- Claim C4 as amended: only an open failing with PermissionError makes the
Reader terminate immediately, with no further open attempt regardless of the
remaining fuel; an open failing for any other reason (not found, busy) makes
the Reader sleep and retry the open itself, so a second iteration follows
whenever the running flag is still set. -/
theorem C4_amended (device : String) (env : Nat → OpenResult) (n : Nat)
    (m : Buffers) :
    (env 0 = OpenResult.permissionDenied →
      (listenLoop cbOk device env (n + 1) 0 m).2 = [IterLog.openPermissionDenied]) ∧
    (env 0 = OpenResult.otherFailure →
      2 ≤ (listenLoop cbOk device env (n + 2) 0 m).2.length) := by
  constructor
  · intro h
    simp [listenLoop, h]
  · intro h
    have := listenLoop_length_pos cbOk device env n 1 m
    simp only [listenLoop, h]
    simpa using this

/-- Witness for the amended C4 at concrete environments. -/
theorem C4_amended_witness :
    (listenLoop cbOk "/dev/hidraw0" (fun _ => OpenResult.permissionDenied) 1 0 []).2 =
      [IterLog.openPermissionDenied] ∧
    2 ≤ (listenLoop cbOk "/dev/hidraw0" envOpenFail 2 0 []).2.length :=
  ⟨(C4_amended "/dev/hidraw0" (fun _ => OpenResult.permissionDenied) 0 []).1 rfl,
   (C4_amended "/dev/hidraw0" envOpenFail 0 []).2 rfl⟩

/-- Counterexample to claim C9: a Reader whose only open attempt raises
PermissionError exits at once; its device identifier is removed from the
active list, yet its buffer entry is still present in the buffer dict after
the exit. -/
theorem C9_counterexample :
    getEntry (listenDevice cbOk "/dev/hidraw0" (fun _ => OpenResult.permissionDenied) 1
      ⟨[], ["/dev/hidraw0"]⟩).1.buffers "/dev/hidraw0" = some [] ∧
    (listenDevice cbOk "/dev/hidraw0" (fun _ => OpenResult.permissionDenied) 1
      ⟨[], ["/dev/hidraw0"]⟩).1.active = [] := by decide

/-- Claim C9 as amended: the buffer entry of a device is created when its
Reader starts, and on Reader exit the device identifier is removed from the
active device list, but the buffer entry is never removed from the buffer
dict: it is still present after the Reader has exited. -/
theorem C9_amended (cb : String → Bool) (device : String) (env : Nat → OpenResult)
    (fuel : Nat) (st : DevState) :
    (getEntry (listenDevice cb device env fuel st).1.buffers device).isSome = true ∧
    (listenDevice cb device env fuel st).1.active = st.active.erase device := by
  refine ⟨?_, listenDevice_active cb device env fuel st⟩
  simp only [listenDevice]
  exact listenLoop_preserves_entry cb device env fuel 0 _ (by simp [getEntry_setBuf])

end BarcodeBuddy
